import Mathlib

/-!
Verification of the FORGE audio-to-video pipeline (files `app.py` and `api.py`).

The development shallow-embeds the parts of the program that the checked
properties are about:

* the LTX duration catalog and the snap-to-catalog quantization of scene
  durations (`app.py`, `generate_video_clip`),
* the pre-flight duration clamp for the pro model / non-baseline resolution /
  high fps (`app.py`, `generate_video_clip`),
* the prompt composition performed in the clip loop (`app.py`, `main`),
* the clip-count heuristic of the scene planner (`app.py`,
  `generate_scene_prompts`),
* the parsing of the planning response (`api.py` and `app.py`,
  `generate_scene_prompts`), over a model of `json.loads`,
* the background job `process_audio_to_video` of `api.py`, embedded as a
  function from the request and the outcomes of the external calls
  (transcription, planning, per-clip generation, ffmpeg invocations,
  file removal) to the sequence of job-record mutations and external
  invocations it performs.

Python `float` arithmetic that only ever feeds `int(...)` truncations and
comparisons is modelled over `ℚ`; Python `int(x)` is `pyInt` (truncation
toward zero).
-/

/-- Python `int(x)` for a real-valued `x`, modelled on `ℚ`: truncation toward
zero. -/
def pyInt (q : ℚ) : ℤ :=
  if 0 ≤ q then ⌊q⌋ else -⌊-q⌋

/-- The whitespace characters removed by Python `str.strip()`. -/
def isPySpace (c : Char) : Bool :=
  c = ' ' || c = '\t' || c = '\n' || c = '\r' || c = '\x0b' || c = '\x0c'

/-- Python `s.strip()`: remove leading and trailing whitespace. -/
def pyStrip (s : String) : String :=
  String.mk (((s.toList.dropWhile isPySpace).reverse.dropWhile isPySpace).reverse)

/-- The fixed duration catalog `VALID_DURATIONS = [6, 8, 10, 12, 14, 16, 18, 20]`
of `app.py`. -/
def VALID_DURATIONS : List ℤ := [6, 8, 10, 12, 14, 16, 18, 20]

/-- Python `min(l, key=lambda x: abs(x - d))`: the first element of `l` whose
distance to `d` is minimal (`min` only replaces the current best on a strictly
smaller key).  `none` on the empty list (Python raises `ValueError`). -/
def pyMinByAbsDist (d : ℤ) : List ℤ → Option ℤ
  | [] => none
  | v :: vs =>
      some (vs.foldl (fun best x =>
        if (x - d).natAbs < (best - d).natAbs then x else best) v)

/-- The duration quantization of `generate_video_clip` in `app.py`:
`if duration not in VALID_DURATIONS: duration = min(VALID_DURATIONS, key=lambda x: abs(x - duration))`. -/
def quantizeDuration (d : ℤ) : ℤ :=
  if d ∈ VALID_DURATIONS then d
  else (pyMinByAbsDist d VALID_DURATIONS).getD d

/-- The model lookup `LTX_MODELS.get(settings.get('model', ...), 'ltx-2-fast')`
of `app.py` (`LTX_MODELS` maps the two display names to API model ids, any
other key falls back to the default). -/
def lookupModel (choice : String) : String :=
  if choice = "Fast (Recommended)" then "ltx-2-fast"
  else if choice = "Pro (Higher Quality)" then "ltx-2-pro"
  else "ltx-2-fast"

/-- The resolution lookup `LTX_RESOLUTIONS.get(..., '1920x1080')` of `app.py`. -/
def lookupResolution (choice : String) : String :=
  if choice = "1080p (1920x1080)" then "1920x1080"
  else if choice = "1440p (2560x1440)" then "2560x1440"
  else if choice = "4K (3840x2160)" then "3840x2160"
  else "1920x1080"

/-- The `settings` dictionary assembled in `main` of `app.py` (the fields the
clip generator and planner read, with the defaults used by the `.get` calls). -/
structure AppSettings where
  model : String := "Fast (Recommended)"
  resolution : String := "1080p (1920x1080)"
  fps : ℤ := 25
  density : String := "Balanced"
  consistency : ℤ := 50
  cameraMotion : String := "Auto (AI decides)"
deriving DecidableEq, Repr

/-- The request body `generate_video_clip` in `app.py` sends to the LTX API
(either the image-to-video or the text-to-video variant). -/
structure LtxPayload where
  imageUri : Option String
  prompt : String
  model : String
  duration : ℤ
  resolution : String
  fps : ℤ
  generateAudio : Option Bool
deriving DecidableEq, Repr

/-- The `generate_video_clip` function of `app.py` up to the dispatch of the
request: quantize the duration to the catalog, look up model / resolution /
fps, apply the 10-second cap for the pro model, non-1080p resolutions or
50 fps, and build the request body (image-conditioned when a reference image
is attached, text-only with `generate_audio: false` otherwise). -/
def appGenerateVideoClip (prompt : String) (duration : ℤ) (settings : AppSettings)
    (imageUri : Option String) : LtxPayload :=
  let d0 := quantizeDuration duration
  let model := lookupModel settings.model
  let resolution := lookupResolution settings.resolution
  let fps := settings.fps
  let d := if model = "ltx-2-pro" ∨ resolution ≠ "1920x1080" ∨ fps = 50
           then min d0 10 else d0
  match imageUri with
  | some uri => ⟨some uri, prompt, model, d, resolution, fps, none⟩
  | none => ⟨none, prompt, model, d, resolution, fps, some false⟩

/-- Python truthiness of an optional string (`None` and `""` are falsy). -/
def optTruthy : Option String → Bool
  | none => false
  | some s => s ≠ ""

/-- The prompt composition of the clip loop in `main` of `app.py`:
start from the scene's own prompt, prepend the stripped style notes when
`style_notes and style_notes.strip()` is truthy, then prepend the image
animation direction when `current_image_uri and image_direction` is truthy. -/
def composeFullPrompt (scenePrompt styleNotes imageDirection : String)
    (currentImageUri : Option String) : String :=
  let full := scenePrompt
  let full := if styleNotes ≠ "" ∧ pyStrip styleNotes ≠ ""
              then pyStrip styleNotes ++ ". " ++ full else full
  if optTruthy currentImageUri ∧ imageDirection ≠ ""
  then imageDirection ++ ". " ++ full else full

/-- The density multiplier table of `generate_scene_prompts` in `app.py`
(`density_multiplier.get(settings.get('density', 'Balanced'), 1.0)`). -/
def densityMultiplier (density : String) : ℚ :=
  if density = "Sparse (longer shots)" then 1 / 2
  else if density = "Balanced" then 1
  else if density = "Dense (more shots)" then 3 / 2
  else if density = "Very Dense (rapid cuts)" then 2
  else 1

/-- The clip-count heuristic of `generate_scene_prompts` in `app.py`:
`base_clips = max(4, min(30, int(duration / 12)))`, scale by the density
multiplier, truncate, and clamp the result to `[4, 40]`. -/
def numClips (duration : ℚ) (density : String) : ℤ :=
  let base : ℤ := max 4 (min 30 (pyInt (duration / 12)))
  let n : ℤ := pyInt ((base : ℚ) * densityMultiplier density)
  max 4 (min 40 n)

example : quantizeDuration 11 = 10 := by decide
example : quantizeDuration 7 = 6 := by decide
example : quantizeDuration 25 = 20 := by decide
example : quantizeDuration 12 = 12 := by decide
example : numClips 60 "Balanced" = 5 := by
  simp [numClips, pyInt, densityMultiplier]
  norm_num
example : numClips 60 "Sparse (longer shots)" = 4 := by
  simp [numClips, pyInt, densityMultiplier]
  norm_num
example : (appGenerateVideoClip "p" 20 {model := "Pro (Higher Quality)"} none).duration = 10 := by
  decide
example : (appGenerateVideoClip "p" 20 {} none).duration = 20 := by decide
example : composeFullPrompt "scene" "notes" "dir" (some "uri") = "dir. notes. scene" := by decide
example : composeFullPrompt "scene" "notes" "dir" none = "notes. scene" := by decide

/-- Folding step of Python `min` with a key function: the running best is
replaced only on a strictly smaller key, so the first minimiser wins. -/
def pyMinFold (key : ℤ → ℕ) (l : List ℤ) (b : ℤ) : ℤ :=
  l.foldl (fun best x => if key x < key best then x else best) b

/-- Specification of `pyMinFold` over an ascending candidate list: the result
is a candidate, its key is minimal, and among candidates of equal key it is
the smallest (Python `min` keeps the first, i.e. smallest, on ties). -/
lemma pyMinFold_spec (key : ℤ → ℕ) (l : List ℤ) (b : ℤ)
    (hch : List.Chain' (· ≤ ·) (b :: l)) :
    pyMinFold key l b ∈ b :: l ∧
    (∀ v ∈ b :: l, key (pyMinFold key l b) ≤ key v) ∧
    (∀ v ∈ b :: l, key v = key (pyMinFold key l b) → pyMinFold key l b ≤ v) := by
  induction l generalizing b with
  | nil => simp [pyMinFold]
  | cons x xs ih =>
    rw [List.chain'_cons] at hch
    by_cases hkey : key x < key b
    · have hres : pyMinFold key (x :: xs) b = pyMinFold key xs x := by
        simp [pyMinFold, hkey]
      obtain ⟨hmem, hmin, htie⟩ := ih x hch.2
      rw [hres]
      refine ⟨List.mem_cons_of_mem _ hmem, ?_, ?_⟩
      · intro v hv
        rcases List.mem_cons.mp hv with hvb | hv'
        · rw [hvb]
          exact le_of_lt (lt_of_le_of_lt (hmin x (List.mem_cons_self _ _)) hkey)
        · exact hmin v hv'
      · intro v hv hkv
        rcases List.mem_cons.mp hv with hvb | hv'
        · have h1 : key (pyMinFold key xs x) ≤ key x := hmin x (List.mem_cons_self _ _)
          rw [hvb] at hkv
          omega
        · exact htie v hv' hkv
    · have hres : pyMinFold key (x :: xs) b = pyMinFold key xs b := by
        simp [pyMinFold, hkey]
      have hch2 : List.Chain' (· ≤ ·) (b :: xs) := by
        cases xs with
        | nil => simp
        | cons y ys =>
          have hxy := List.chain'_cons.mp hch.2
          exact List.chain'_cons.mpr ⟨le_trans hch.1 hxy.1, hxy.2⟩
      obtain ⟨hmem, hmin, htie⟩ := ih b hch2
      rw [hres]
      refine ⟨?_, ?_, ?_⟩
      · rcases List.mem_cons.mp hmem with h | h
        · rw [h]
          exact List.mem_cons_self _ _
        · exact List.mem_cons_of_mem _ (List.mem_cons_of_mem _ h)
      · intro v hv
        rcases List.mem_cons.mp hv with hvb | hv'
        · rw [hvb]
          exact hmin b (List.mem_cons_self _ _)
        · rcases List.mem_cons.mp hv' with hvx | hv''
          · have h1 := hmin b (List.mem_cons_self _ _)
            rw [hvx]
            omega
          · exact hmin v (List.mem_cons_of_mem _ hv'')
      · intro v hv hkv
        rcases List.mem_cons.mp hv with hvb | hv'
        · rw [hvb] at hkv ⊢
          exact htie b (List.mem_cons_self _ _) hkv
        · rcases List.mem_cons.mp hv' with hvx | hv''
          · have h1 : key (pyMinFold key xs b) ≤ key b := hmin b (List.mem_cons_self _ _)
            rw [hvx] at hkv
            have h2 : key b = key (pyMinFold key xs b) := by omega
            rw [hvx]
            exact le_trans (htie b (List.mem_cons_self _ _) h2) hch.1
          · exact htie v (List.mem_cons_of_mem _ hv'') hkv

/-- The duration field of the request body built by `generate_video_clip` in
`app.py` is the quantized duration, capped at 10 under the pro-model /
resolution / fps condition (identical in both dispatch modes). -/
lemma appGenerateVideoClip_duration_eq (p : String) (d : ℤ) (s : AppSettings)
    (img : Option String) :
    (appGenerateVideoClip p d s img).duration =
      if lookupModel s.model = "ltx-2-pro" ∨ lookupResolution s.resolution ≠ "1920x1080"
         ∨ s.fps = 50
      then min (quantizeDuration d) 10 else quantizeDuration d := by
  cases img <;> rfl

/-- C2: every scene duration passed to clip generation is quantized to the
fixed catalog `{6, 8, 10, 12, 14, 16, 18, 20}`: the quantized duration is a
catalog member, it is a nearest catalog entry, ties are broken toward the
smaller value, the duration in the dispatched request body is always a
catalog member, and in particular an input duration of 11 yields 10. -/
theorem clip_duration_quantization (d : ℤ) :
    quantizeDuration d ∈ VALID_DURATIONS ∧
    (∀ v ∈ VALID_DURATIONS, (quantizeDuration d - d).natAbs ≤ (v - d).natAbs) ∧
    (∀ v ∈ VALID_DURATIONS,
      (v - d).natAbs = (quantizeDuration d - d).natAbs → quantizeDuration d ≤ v) ∧
    (∀ (p : String) (s : AppSettings) (img : Option String),
      (appGenerateVideoClip p d s img).duration ∈ VALID_DURATIONS) ∧
    quantizeDuration 11 = 10 := by
  have hmain : quantizeDuration d ∈ VALID_DURATIONS ∧
      (∀ v ∈ VALID_DURATIONS, (quantizeDuration d - d).natAbs ≤ (v - d).natAbs) ∧
      (∀ v ∈ VALID_DURATIONS,
        (v - d).natAbs = (quantizeDuration d - d).natAbs → quantizeDuration d ≤ v) := by
    by_cases hmem : d ∈ VALID_DURATIONS
    · have hq : quantizeDuration d = d := by simp [quantizeDuration, hmem]
      rw [hq]
      refine ⟨hmem, ?_, ?_⟩
      · intro v _
        simp
      · intro v hv hkv
        have h0 : ((d : ℤ) - d).natAbs = 0 := by simp
        rw [h0] at hkv
        have : v - d = 0 := Int.natAbs_eq_zero.mp hkv
        omega
    · have hq : quantizeDuration d =
          pyMinFold (fun x => (x - d).natAbs) [8, 10, 12, 14, 16, 18, 20] 6 := by
        unfold quantizeDuration
        rw [if_neg hmem]
        rfl
      have hch : List.Chain' (· ≤ ·) ((6 : ℤ) :: [8, 10, 12, 14, 16, 18, 20]) := by
        norm_num [List.chain'_cons]
      obtain ⟨hm, hmin, htie⟩ :=
        pyMinFold_spec (fun x => (x - d).natAbs) [8, 10, 12, 14, 16, 18, 20] 6 hch
      rw [hq]
      exact ⟨hm, hmin, htie⟩
  refine ⟨hmain.1, hmain.2.1, hmain.2.2, ?_, by decide⟩
  intro p s img
  rw [appGenerateVideoClip_duration_eq]
  split
  · have hq := hmain.1
    rcases (by simpa [VALID_DURATIONS] using hq :
        quantizeDuration d = 6 ∨ quantizeDuration d = 8 ∨ quantizeDuration d = 10 ∨
        quantizeDuration d = 12 ∨ quantizeDuration d = 14 ∨ quantizeDuration d = 16 ∨
        quantizeDuration d = 18 ∨ quantizeDuration d = 20) with
      h | h | h | h | h | h | h | h <;> rw [h] <;> decide
  · exact hmain.1

/-- Witness for C2: the off-catalog duration 11 snaps to 10, which is in the
catalog and at least as close to 11 as the entry 12.  -/
theorem clip_duration_quantization_witness :
    quantizeDuration 11 = 10 ∧ quantizeDuration 11 ∈ VALID_DURATIONS ∧
    (quantizeDuration 11 - 11).natAbs ≤ ((12 : ℤ) - 11).natAbs :=
  ⟨(clip_duration_quantization 11).2.2.2.2, (clip_duration_quantization 11).1,
    (clip_duration_quantization 11).2.1 12 (by decide)⟩

/-- C3: whenever the looked-up model is the pro model, or the looked-up
resolution differs from 1920x1080, or the fps is 50, the duration in the
dispatched request body equals the catalog-quantized duration capped at 10,
hence never exceeds 10. -/
theorem pro_duration_cap (p : String) (d : ℤ) (s : AppSettings) (img : Option String)
    (h : lookupModel s.model = "ltx-2-pro" ∨ lookupResolution s.resolution ≠ "1920x1080"
         ∨ s.fps = 50) :
    (appGenerateVideoClip p d s img).duration = min (quantizeDuration d) 10 ∧
    (appGenerateVideoClip p d s img).duration ≤ 10 := by
  rw [appGenerateVideoClip_duration_eq, if_pos h]
  exact ⟨rfl, min_le_right _ _⟩

/-- Witness for C3: the pro model with a planned duration of 20 dispatches a
duration of exactly 10. -/
theorem pro_duration_cap_witness :
    (appGenerateVideoClip "prompt" 20 {model := "Pro (Higher Quality)"} none).duration ≤ 10 ∧
    (appGenerateVideoClip "prompt" 20 {model := "Pro (Higher Quality)"} none).duration = 10 :=
  ⟨(pro_duration_cap "prompt" 20 {model := "Pro (Higher Quality)"} none
      (Or.inl (by decide))).2, by decide⟩

/-- Counterexample to C5: when both style notes and an image-animation
direction are present, the code of `main` in `app.py` prepends the style notes
first and the animation direction second, so the direction ends up leftmost;
the order claimed by the spec (style notes before the direction) produces a
different string. -/
theorem prompt_order_counterexample :
    composeFullPrompt "scene" "notes" "dir" (some "uri") = "dir. notes. scene" ∧
    "dir. notes. scene" ≠ "notes. dir. scene" :=
  ⟨by decide, by decide⟩

/-- C5 amended: the final prompt is the concatenation, with separators, of the
image-animation direction first (only when the clip uses a reference image),
then the stripped global style notes, then the scene's own prompt text; both
optional parts are prefixes, the scene text always comes last. -/
theorem prompt_order_amended (p sn dir : String) (uri : Option String)
    (h1 : sn ≠ "") (h2 : pyStrip sn ≠ "") (h3 : optTruthy uri = true) (h4 : dir ≠ "") :
    composeFullPrompt p sn dir uri = dir ++ ". " ++ (pyStrip sn ++ ". " ++ p) := by
  unfold composeFullPrompt
  rw [if_pos ⟨h3, h4⟩, if_pos ⟨h1, h2⟩]

/-- Witness for the amended C5 at concrete inputs. -/
theorem prompt_order_amended_witness :
    composeFullPrompt "scene" "notes" "dir" (some "uri") =
      "dir" ++ ". " ++ (pyStrip "notes" ++ ". " ++ "scene") :=
  prompt_order_amended "scene" "notes" "dir" (some "uri")
    (by decide) (by decide) (by decide) (by decide)

/-- Casting an integer to `ℚ` and truncating is the identity. -/
lemma pyInt_intCast (z : ℤ) : pyInt (z : ℚ) = z := by
  unfold pyInt
  split
  · exact Int.floor_intCast z
  · rw [← Int.cast_neg, Int.floor_intCast, neg_neg]

/-- C7: for every total duration and density setting the planner's target clip
count lies in `[4, 40]`, and for the balanced density it lies in `[4, 30]`
(the count is `clamp(int(D / 12), 4, 30)` scaled by the density multiplier and
clamped to `[4, 40]`). -/
theorem planner_clip_count_bounds (D : ℚ) (density : String) :
    (4 ≤ numClips D density ∧ numClips D density ≤ 40) ∧
    (density = "Balanced" → numClips D density ≤ 30) := by
  refine ⟨⟨?_, ?_⟩, ?_⟩
  · simp only [numClips]
    exact le_max_left _ _
  · simp only [numClips]
    exact max_le (by norm_num) (min_le_left _ _)
  · intro hb
    subst hb
    have hm : densityMultiplier "Balanced" = 1 := by simp [densityMultiplier]
    simp only [numClips, hm, mul_one, pyInt_intCast]
    have hb30 : max (4 : ℤ) (min 30 (pyInt (D / 12))) ≤ 30 :=
      max_le (by norm_num) (min_le_left _ _)
    rw [min_eq_right (le_trans hb30 (by norm_num))]
    exact max_le (by norm_num) hb30

/-- Witness for C7 at a 60-second duration with the balanced density. -/
theorem planner_clip_count_bounds_witness :
    (4 ≤ numClips 60 "Balanced" ∧ numClips 60 "Balanced" ≤ 40) ∧
    numClips 60 "Balanced" ≤ 30 :=
  ⟨(planner_clip_count_bounds 60 "Balanced").1,
    (planner_clip_count_bounds 60 "Balanced").2 rfl⟩

/-- JSON values as returned by Python `json.loads` (numbers restricted to
integers, strings without escape sequences: the constructs the planning
responses handled here use). -/
inductive Json where
  | null
  | bool (b : Bool)
  | num (n : ℤ)
  | str (s : String)
  | arr (xs : List Json)
  | obj (kvs : List (String × Json))
deriving BEq

/-- Opening brace character. -/
def braceL : Char := Char.ofNat 123

/-- Closing brace character. -/
def braceR : Char := Char.ofNat 125

/-- Skip JSON whitespace. -/
def skipWs : List Char → List Char
  | [] => []
  | c :: cs => if c = ' ' || c = '\t' || c = '\n' || c = '\r' then skipWs cs else c :: cs

/-- Read the characters of a JSON string up to the closing quote (escape
sequences are outside the modelled subset). -/
def takeStringChars : List Char → Option (List Char × List Char)
  | [] => none
  | c :: cs =>
      if c = '"' then some ([], cs)
      else if c = '\\' then none
      else
        match takeStringChars cs with
        | some (s, r) => some (c :: s, r)
        | none => none

/-- Numeric value of a digit character. -/
def digitVal (c : Char) : ℕ := c.toNat - '0'.toNat

/-- Read a natural number literal (a float literal is outside the modelled
subset). -/
def takeNat (cs : List Char) : Option (ℕ × List Char) :=
  let ds := cs.takeWhile Char.isDigit
  let rest := cs.dropWhile Char.isDigit
  if ds.isEmpty then none
  else
    match rest with
    | '.' :: _ => none
    | 'e' :: _ => none
    | 'E' :: _ => none
    | _ => some (ds.foldl (fun a c => a * 10 + digitVal c) 0, rest)

/-- Read an integer literal with optional leading minus. -/
def takeNum (cs : List Char) : Option (ℤ × List Char) :=
  match cs with
  | '-' :: rest =>
      match takeNat rest with
      | some (n, r) => some (-(n : ℤ), r)
      | none => none
  | _ =>
      match takeNat cs with
      | some (n, r) => some ((n : ℤ), r)
      | none => none

mutual

/-- Fuel-indexed JSON value reader. -/
def parseVal : ℕ → List Char → Option (Json × List Char)
  | 0, _ => none
  | f + 1, cs =>
    match skipWs cs with
    | [] => none
    | c :: rest =>
      if c = 'n' then
        match rest with
        | 'u' :: 'l' :: 'l' :: r => some (.null, r)
        | _ => none
      else if c = 't' then
        match rest with
        | 'r' :: 'u' :: 'e' :: r => some (.bool true, r)
        | _ => none
      else if c = 'f' then
        match rest with
        | 'a' :: 'l' :: 's' :: 'e' :: r => some (.bool false, r)
        | _ => none
      else if c = '"' then
        match takeStringChars rest with
        | some (s, r) => some (.str (String.mk s), r)
        | none => none
      else if c = '[' then
        match skipWs rest with
        | ']' :: r => some (.arr [], r)
        | cs2 =>
          match parseElems f cs2 with
          | some (xs, r) => some (.arr xs, r)
          | none => none
      else if c = braceL then
        match skipWs rest with
        | [] => none
        | c2 :: r =>
          if c2 = braceR then some (.obj [], r)
          else
            match parseMembers f (c2 :: r) with
            | some (kvs, r2) => some (.obj kvs, r2)
            | none => none
      else
        match takeNum (c :: rest) with
        | some (n, r) => some (.num n, r)
        | none => none

/-- Fuel-indexed reader for the elements of a non-empty JSON array. -/
def parseElems : ℕ → List Char → Option (List Json × List Char)
  | 0, _ => none
  | f + 1, cs =>
    match parseVal f cs with
    | none => none
    | some (v, r) =>
      match skipWs r with
      | ',' :: r2 =>
        match parseElems f r2 with
        | some (xs, r3) => some (v :: xs, r3)
        | none => none
      | ']' :: r2 => some ([v], r2)
      | _ => none

/-- Fuel-indexed reader for the members of a non-empty JSON object. -/
def parseMembers : ℕ → List Char → Option (List (String × Json) × List Char)
  | 0, _ => none
  | f + 1, cs =>
    match skipWs cs with
    | '"' :: rest =>
      match takeStringChars rest with
      | none => none
      | some (k, r) =>
        match skipWs r with
        | ':' :: r2 =>
          match parseVal f r2 with
          | none => none
          | some (v, r3) =>
            match skipWs r3 with
            | ',' :: r4 =>
              match parseMembers f r4 with
              | some (kvs, r5) => some ((String.mk k, v) :: kvs, r5)
              | none => none
            | c2 :: r4 => if c2 = braceR then some ([(String.mk k, v)], r4) else none
            | [] => none
        | _ => none
    | _ => none

end

/-- Model of Python `json.loads`: parse a complete JSON document, `none` on
any parse failure (where Python raises `json.JSONDecodeError`). -/
def jsonLoads (s : String) : Option Json :=
  match parseVal (2 * s.length + 4) s.toList with
  | some (j, r) => if skipWs r = [] then some j else none
  | none => none

/-- Model of `re.search(r'\[.*\]', content, re.DOTALL)` followed by
`match.group()`: the greedy leftmost match runs from the first opening bracket
to the last closing bracket after it, `none` when no such pair exists. -/
def extractBrackets (s : String) : Option String :=
  let cs := s.toList
  match cs.findIdx? (· = '['), cs.reverse.findIdx? (· = ']') with
  | some i, some jr =>
      let j := cs.length - 1 - jr
      if i ≤ j then some (String.mk ((cs.drop i).take (j - i + 1))) else none
  | _, _ => none

example : jsonLoads "[]" = some (Json.arr []) := rfl
example : jsonLoads "no json here" = none := rfl
example : jsonLoads "[6, 8]" = some (Json.arr [Json.num 6, Json.num 8]) := rfl
example : jsonLoads "[\x7b\"duration\": 6\x7d]" =
    some (Json.arr [Json.obj [("duration", Json.num 6)]]) := rfl
example : extractBrackets "scene plan" = none := rfl
example : extractBrackets "ok [1] and [2] end" = some "[1] and [2]" := rfl

/-- Worker for Python `str.split(sep)`: scan left to right, breaking at each
non-overlapping occurrence of the (non-empty) separator.  The fuel is the
input length plus one, which the scan never exhausts. -/
def pySplitGo (sep : List Char) : ℕ → List Char → List Char → List (List Char)
  | 0, rest, acc => [acc.reverse ++ rest]
  | _ + 1, [], acc => [acc.reverse]
  | f + 1, c :: cs, acc =>
      if sep ≠ [] ∧ sep.isPrefixOf (c :: cs)
      then acc.reverse :: pySplitGo sep f ((c :: cs).drop sep.length) []
      else pySplitGo sep f cs (c :: acc)

/-- Python `s.split(sep)` for a non-empty separator. -/
def pySplit (s sep : String) : List String :=
  (pySplitGo sep.toList (s.toList.length + 1) s.toList []).map String.mk

/-- Python `sub in s` substring containment, expressed through `pySplit`
exactly as the guard of the indexing `s.split(sep)[1]` requires. -/
def pyContainsSub (s sub : String) : Bool := 1 < (pySplit s sub).length

example : pySplit "ab``cd``ef" "``" = ["ab", "cd", "ef"] := rfl
example : pySplit "abcd" "``" = ["abcd"] := rfl
example : pyContainsSub "ab``cd" "``" = true := rfl

/-- The planning-response parse of `generate_scene_prompts` in `api.py`
(lines 159-168): try `json.loads` on the whole content; on failure search for
a bracketed substring and parse that (a failure of this second parse is an
uncaught exception, modelled as `Except.error`); when no bracketed substring
exists, return `[content]` — a single-element plan holding the raw response
text. -/
def apiParseScenes (content : String) : Except Unit Json :=
  match jsonLoads content with
  | some j => .ok j
  | none =>
      match extractBrackets content with
      | some sub =>
          match jsonLoads sub with
          | some j => .ok j
          | none => .error ()
      | none => .ok (.arr [.str content])

/-- The planning-response parse of `generate_scene_prompts` in `app.py`
(lines 334-340): strip a ```json or ``` code fence if present, then
`json.loads(content.strip())`; a parse failure is an uncaught
`json.JSONDecodeError`, modelled as `Except.error`.  No validation of the
scene shape (prompt/duration fields) is performed. -/
def appParseScenes (content : String) : Except Unit Json :=
  let c1 :=
    if pyContainsSub content "```json"
    then (pySplit ((pySplit content "```json").getD 1 "") "```").getD 0 ""
    else if pyContainsSub content "```"
    then (pySplit ((pySplit content "```").getD 1 "") "```").getD 0 ""
    else content
  match jsonLoads (pyStrip c1) with
  | some j => .ok j
  | none => .error ()

example : apiParseScenes "[\"a wide shot\"]" = .ok (Json.arr [Json.str "a wide shot"]) := rfl
example : appParseScenes "```json\n[6]\n```" = .ok (Json.arr [Json.num 6]) := rfl

/-- Counterexample to C6: three planning responses that do not raise a
planning error although the claim requires one.  A free-text response with no
bracketed substring is silently coerced by `api.py` into a single-element plan
holding the raw text; an empty plan array is accepted as an empty plan by
`app.py`; and a scene object missing the required `prompt` field is accepted
unvalidated by `app.py`. -/
theorem planning_parse_counterexample :
    apiParseScenes "Here is the plan we discussed" =
      .ok (Json.arr [Json.str "Here is the plan we discussed"]) ∧
    appParseScenes "[]" = .ok (Json.arr []) ∧
    appParseScenes "[\x7b\"duration\": 6\x7d]" =
      .ok (Json.arr [Json.obj [("duration", Json.num 6)]]) :=
  ⟨rfl, rfl, rfl⟩

/-- C6 amended: in the API variant, a planning response that is not valid
JSON and contains no bracketed substring is silently coerced into a
single-element plan containing the raw response text instead of failing; (on
the other paths the parsed value is returned unvalidated, so an empty plan
array or a scene missing prompt/duration fields is accepted, and in the app
variant a response that is not valid JSON after stripping code fences raises
an error that fails the stage). -/
theorem planning_parse_amended (content : String)
    (h1 : jsonLoads content = none) (h2 : extractBrackets content = none) :
    apiParseScenes content = .ok (.arr [.str content]) := by
  unfold apiParseScenes
  rw [h1, h2]

/-- Witness for the amended C6 at a concrete free-text response. -/
theorem planning_parse_amended_witness :
    apiParseScenes "Here is the plan we discussed" =
      .ok (.arr [.str "Here is the plan we discussed"]) :=
  planning_parse_amended "Here is the plan we discussed" rfl rfl

/-- The request body `generate_video_clip` in `api.py` sends to the LTX
text-to-video endpoint.  The function signature carries `duration: int = 6`
as a default parameter. -/
structure ApiClipPayload where
  prompt : String
  model : String
  resolution : String
  fps : ℤ
  duration : ℤ
deriving DecidableEq, Repr

/-- The `generate_video_clip` helper of `api.py` up to its dispatch: build the
request body from its arguments; the duration argument defaults to 6. -/
def apiGenerateVideoClip (prompt : String) (model : String) (resolution : String)
    (fps : ℤ) (duration : ℤ := 6) : ApiClipPayload :=
  ⟨prompt, model, resolution, fps, duration⟩

/-- The relevant fields of the `AudioToVideoRequest` model of `api.py`. -/
structure ApiRequest where
  promptOverride : Option String
  style : String
  styleNotes : Option String
  model : String
  resolution : String
  fps : ℤ
deriving DecidableEq, Repr

/-- Outcomes of the external calls `process_audio_to_video` makes, one oracle
per call site: transcription, planning, per-clip generation plus download,
the two ffmpeg invocations, and the cleanup removals. -/
structure ApiOracles where
  openaiKey : String
  ltxKey : String
  transcribe : Except String String
  plan : Except String (List String)
  clip : ℕ → Except String String
  concat : Except String Unit
  merge : Except String Unit
  removeClip : ℕ → Except String Unit
  removeConcat : Except String Unit

/-- One observable step of `process_audio_to_video`: a mutation of the job's
entry in the `JOBS` dictionary, or the invocation of one of the pipeline
stages. -/
inductive Ev where
  | setStatus (s : String)
  | setProgress (n : ℤ)
  | setMessage (m : String)
  | setError (e : String)
  | setPath (p : String)
  | callTranscribe
  | callPlan
  | callGenClip (i : ℕ) (payload : ApiClipPayload)
  | callConcat
  | callMerge
deriving DecidableEq, Repr

/-- The `except` handler of `process_audio_to_video`: set the status to
failed, then record the error text. -/
def failTrace (e : String) : List Ev :=
  [.setStatus "failed", .setError e]

/-- The per-clip progress value `30 + int((i / len(scenes)) * 50)` of the
clip-generation loop. -/
def clipProgress (i n : ℕ) : ℤ :=
  30 + pyInt (((i : ℚ) / (n : ℚ)) * 50)

/-- The clip-generation loop of `process_audio_to_video`: for each scene, in
order, update progress and message, dispatch the clip request (built with the
default duration of 6), and stop at the first failure with its error. -/
def runClipsGo (req : ApiRequest) (clip : ℕ → Except String String) (n : ℕ) :
    ℕ → List String → List Ev × Option String
  | _, [] => ([], none)
  | i, scene :: rest =>
      let pre : List Ev :=
        [.setProgress (clipProgress i n),
         .setMessage ("Generating clip " ++ toString (i + 1) ++ "/" ++ toString n ++ "..."),
         .callGenClip i (apiGenerateVideoClip scene req.model req.resolution req.fps)]
      match clip i with
      | .error e => (pre, some e)
      | .ok _ =>
          let r := runClipsGo req clip n (i + 1) rest
          (pre ++ r.1, r.2)

/-- The cleanup loop of `process_audio_to_video`: remove the per-clip files in
order; the first failing removal raises (still inside the `try`). -/
def runCleanupGo (removeClip : ℕ → Except String Unit) : ℕ → ℕ → Option String
  | _, 0 => none
  | i, m + 1 =>
      match removeClip i with
      | .error e => some e
      | .ok _ => runCleanupGo removeClip (i + 1) m

/-- Steps 4-5 and the cleanup of `process_audio_to_video`: concatenation,
audio merge, completion update (status, progress, message, result path, in
that order), then removal of the intermediate files.  Any failure runs the
`except` handler. -/
def afterClips (o : ApiOracles) (n : ℕ) : List Ev :=
  [.setMessage "Assembling video...", .setProgress 85, .callConcat] ++
  match o.concat with
  | .error e => failTrace e
  | .ok _ =>
      [.setMessage "Adding audio...", .setProgress 95, .callMerge] ++
      match o.merge with
      | .error e => failTrace e
      | .ok _ =>
          [.setStatus "completed", .setProgress 100, .setMessage "Video ready!",
           .setPath "final.mp4"] ++
          match runCleanupGo o.removeClip 0 n with
          | some e => failTrace e
          | none =>
              match o.removeConcat with
              | .error e => failTrace e
              | .ok _ => []

/-- Step 3 onward of `process_audio_to_video`, from a fixed scene list. -/
def runFromScenes (req : ApiRequest) (o : ApiOracles) (scenes : List String) : List Ev :=
  .setMessage "Generating video clips..." ::
  (runClipsGo req o.clip scenes.length 0 scenes).1 ++
  match (runClipsGo req o.clip scenes.length 0 scenes).2 with
  | some e => failTrace e
  | none => afterClips o scenes.length

/-- The body of `process_audio_to_video`: mark the job processing, check the
API keys, transcribe and plan (both skipped when `prompt_override` is set,
which becomes the single scene), then generate, assemble, and clean up. -/
def runApiBody (req : ApiRequest) (o : ApiOracles) : List Ev :=
  [.setStatus "processing", .setProgress 0] ++
  if o.openaiKey = "" then failTrace "OpenAI API key not configured"
  else if o.ltxKey = "" then failTrace "LTX API key not configured"
  else
    [.setMessage "Transcribing audio...", .setProgress 10] ++
    match req.promptOverride with
    | some p => runFromScenes req o [p]
    | none =>
        .callTranscribe ::
        match o.transcribe with
        | .error e => failTrace e
        | .ok _ =>
            [.setMessage "Generating scene descriptions...", .setProgress 20, .callPlan] ++
            match o.plan with
            | .error e => failTrace e
            | .ok scenes => runFromScenes req o scenes

/-- A full job execution in `api.py`: the job entry created by the `/generate`
endpoint (`status pending, progress 0, message "Job queued"`), followed by the
background task `process_audio_to_video`. -/
def runApi (req : ApiRequest) (o : ApiOracles) : List Ev :=
  [.setStatus "pending", .setProgress 0, .setMessage "Job queued"] ++ runApiBody req o

/-- The job's entry in the `JOBS` dictionary (all keys absent until first
assigned). -/
structure JobRec where
  status : Option String := none
  progress : Option ℤ := none
  message : Option String := none
  error : Option String := none
  videoPath : Option String := none
deriving DecidableEq, Repr

/-- Apply one event to the job record (stage invocations do not mutate it). -/
def applyEv (r : JobRec) : Ev → JobRec
  | .setStatus s => { r with status := some s }
  | .setProgress n => { r with progress := some n }
  | .setMessage m => { r with message := some m }
  | .setError e => { r with error := some e }
  | .setPath p => { r with videoPath := some p }
  | _ => r

/-- The job record at the end of a trace. -/
def finalRec (tr : List Ev) : JobRec :=
  tr.foldl applyEv {}

/-- The successive values written to the job's progress field. -/
def progressValues (tr : List Ev) : List ℤ :=
  tr.filterMap fun e =>
    match e with
    | .setProgress n => some n
    | _ => none

/-- The durations of the clip requests dispatched in a trace, in order. -/
def dispatchedDurations (tr : List Ev) : List ℤ :=
  tr.filterMap fun e =>
    match e with
    | .callGenClip _ pl => some pl.duration
    | _ => none

/-- The scene list `process_audio_to_video` will iterate over, when it reaches
the clip loop: the single override prompt, or the planning result. -/
def scenesOf (req : ApiRequest) (o : ApiOracles) : Option (List String) :=
  match req.promptOverride with
  | some p => some [p]
  | none =>
      match o.transcribe with
      | .error _ => none
      | .ok _ =>
          match o.plan with
          | .error _ => none
          | .ok scenes => some scenes

/-- Event is not an invocation of the assembler (concatenation or merge). -/
def notAssembly : Ev → Bool
  | .callConcat => false
  | .callMerge => false
  | _ => true

/-- Event is neither the transcription nor the planning call. -/
def notTranscribePlan : Ev → Bool
  | .callTranscribe => false
  | .callPlan => false
  | _ => true

/-- Event is not an error-field write. -/
def notSetError : Ev → Bool
  | .setError _ => false
  | _ => true

/-- Event is not a result-path write. -/
def notSetPath : Ev → Bool
  | .setPath _ => false
  | _ => true

/-- The `except` handler leaves the job failed with the caught error recorded,
whatever happened before. -/
lemma finalRec_append_failTrace (xs : List Ev) (e : String) :
    (finalRec (xs ++ failTrace e)).status = some "failed" ∧
    (finalRec (xs ++ failTrace e)).error = some e := by
  unfold finalRec failTrace
  rw [List.foldl_append]
  exact ⟨rfl, rfl⟩

/-- Every event of the clip loop is a progress update, a message update, or a
clip dispatch whose payload is built by `apiGenerateVideoClip` from the scene
text and the request settings. -/
lemma runClipsGo_all (req : ApiRequest) (clip : ℕ → Except String String) (n : ℕ)
    (P : Ev → Bool)
    (hprog : ∀ z, P (.setProgress z) = true)
    (hmsg : ∀ m, P (.setMessage m) = true)
    (hgen : ∀ i s, P (.callGenClip i (apiGenerateVideoClip s req.model req.resolution req.fps))
      = true) :
    ∀ (scenes : List String) (i : ℕ), ((runClipsGo req clip n i scenes).1.all P) = true := by
  intro scenes
  induction scenes with
  | nil => intro i; rfl
  | cons s rest ih =>
      intro i
      unfold runClipsGo
      cases hc : clip i with
      | error e => simp [hprog, hmsg, hgen]
      | ok u => simp [List.all_append, hprog, hmsg, hgen, ih (i + 1)]

/-- When the clip loop fails, `runFromScenes` is the loop's events followed by
the failure handler. -/
lemma runFromScenes_fail (req : ApiRequest) (o : ApiOracles) (scenes : List String)
    (e : String) (hfail : (runClipsGo req o.clip scenes.length 0 scenes).2 = some e) :
    runFromScenes req o scenes =
      .setMessage "Generating video clips..." ::
        (runClipsGo req o.clip scenes.length 0 scenes).1 ++ failTrace e := by
  unfold runFromScenes
  rw [hfail]

/-- C1: if the clip-generation loop fails on any clip (the loop stops at the
first failing clip, whose error it reports), the job ends failed with that
error recorded, and neither the concatenation nor the audio merge is ever
invoked. -/
theorem clip_failure_aborts (req : ApiRequest) (o : ApiOracles) (scenes : List String)
    (e : String) (h1 : o.openaiKey ≠ "") (h2 : o.ltxKey ≠ "")
    (hs : scenesOf req o = some scenes)
    (hfail : (runClipsGo req o.clip scenes.length 0 scenes).2 = some e) :
    (finalRec (runApi req o)).status = some "failed" ∧
    (finalRec (runApi req o)).error = some e ∧
    (runApi req o).all notAssembly = true := by
  have hall : ((runClipsGo req o.clip scenes.length 0 scenes).1.all notAssembly) = true :=
    runClipsGo_all req o.clip scenes.length notAssembly
      (fun _ => rfl) (fun _ => rfl) (fun _ _ => rfl) scenes 0
  cases ho : req.promptOverride with
  | some p =>
      simp only [scenesOf, ho, Option.some.injEq] at hs
      subst hs
      simp only [List.length_singleton] at hfail hall
      have htr : runApi req o =
          ([Ev.setStatus "pending", Ev.setProgress 0, Ev.setMessage "Job queued",
            Ev.setStatus "processing", Ev.setProgress 0,
            Ev.setMessage "Transcribing audio...", Ev.setProgress 10] ++
            (Ev.setMessage "Generating video clips..." ::
              (runClipsGo req o.clip 1 0 [p]).1)) ++ failTrace e := by
        have hfail1 : (runClipsGo req o.clip [p].length 0 [p]).2 = some e := hfail
        simp only [runApi, runApiBody, ho]
        rw [if_neg h1, if_neg h2, runFromScenes_fail req o [p] e hfail1]
        simp
      rw [htr]
      refine ⟨(finalRec_append_failTrace _ _).1, (finalRec_append_failTrace _ _).2, ?_⟩
      simp [List.all_append, List.all_cons, notAssembly, failTrace, hall]
  | none =>
      cases ht : o.transcribe with
      | error e2 => simp [scenesOf, ho, ht] at hs
      | ok t =>
          cases hp : o.plan with
          | error e2 => simp [scenesOf, ho, ht, hp] at hs
          | ok s =>
              simp only [scenesOf, ho, ht, hp, Option.some.injEq] at hs
              subst hs
              have htr : runApi req o =
                  ([Ev.setStatus "pending", Ev.setProgress 0, Ev.setMessage "Job queued",
                    Ev.setStatus "processing", Ev.setProgress 0,
                    Ev.setMessage "Transcribing audio...", Ev.setProgress 10,
                    Ev.callTranscribe, Ev.setMessage "Generating scene descriptions...",
                    Ev.setProgress 20, Ev.callPlan] ++
                    (Ev.setMessage "Generating video clips..." ::
                      (runClipsGo req o.clip s.length 0 s).1)) ++ failTrace e := by
                simp only [runApi, runApiBody, ho, ht, hp]
                rw [if_neg h1, if_neg h2, runFromScenes_fail req o s e hfail]
                simp
              rw [htr]
              refine ⟨(finalRec_append_failTrace _ _).1,
                (finalRec_append_failTrace _ _).2, ?_⟩
              simp [List.all_append, List.all_cons, notAssembly, failTrace, hall]

/-- Witness for C1: a one-scene override job whose single clip generation
fails ends failed with that error and never invokes the assembler. -/
theorem clip_failure_aborts_witness :
    (finalRec (runApi ⟨some "ovr", "Cinematic", none, "m", "r", 25⟩
      ⟨"k", "k", Except.ok "t", Except.ok [], fun _ => Except.error "boom",
        Except.ok (), Except.ok (), fun _ => Except.ok (), Except.ok ()⟩)).status
      = some "failed" ∧
    (finalRec (runApi ⟨some "ovr", "Cinematic", none, "m", "r", 25⟩
      ⟨"k", "k", Except.ok "t", Except.ok [], fun _ => Except.error "boom",
        Except.ok (), Except.ok (), fun _ => Except.ok (), Except.ok ()⟩)).error
      = some "boom" ∧
    (runApi ⟨some "ovr", "Cinematic", none, "m", "r", 25⟩
      ⟨"k", "k", Except.ok "t", Except.ok [], fun _ => Except.error "boom",
        Except.ok (), Except.ok (), fun _ => Except.ok (), Except.ok ()⟩).all notAssembly
      = true :=
  clip_failure_aborts _ _ ["ovr"] "boom" (by decide) (by decide) rfl rfl

/-- Every event of the assembly-and-cleanup phase satisfies a predicate that
holds on all record mutations and on the two assembler invocations. -/
lemma afterClips_all (o : ApiOracles) (n : ℕ) (P : Ev → Bool)
    (hstat : ∀ s, P (.setStatus s) = true)
    (hprog : ∀ z, P (.setProgress z) = true)
    (hmsg : ∀ m, P (.setMessage m) = true)
    (herr : ∀ e, P (.setError e) = true)
    (hpath : ∀ p, P (.setPath p) = true)
    (hconcat : P .callConcat = true)
    (hmerge : P .callMerge = true) :
    (afterClips o n).all P = true := by
  unfold afterClips
  cases o.concat with
  | error e => simp [failTrace, hstat, hprog, hmsg, herr, hconcat]
  | ok _ =>
      cases o.merge with
      | error e => simp [failTrace, hstat, hprog, hmsg, herr, hconcat, hmerge]
      | ok _ =>
          cases runCleanupGo o.removeClip 0 n with
          | some e =>
              simp [failTrace, hstat, hprog, hmsg, herr, hpath, hconcat, hmerge]
          | none =>
              cases o.removeConcat with
              | error e =>
                  simp [failTrace, hstat, hprog, hmsg, herr, hpath, hconcat, hmerge]
              | ok _ =>
                  simp [failTrace, hstat, hprog, hmsg, herr, hpath, hconcat, hmerge]

/-- Every event of the clip/assembly phase satisfies a predicate that holds on
all record mutations, the assembler invocations, and the dispatched clip
payloads. -/
lemma runFromScenes_all (req : ApiRequest) (o : ApiOracles) (scenes : List String)
    (P : Ev → Bool)
    (hstat : ∀ s, P (.setStatus s) = true)
    (hprog : ∀ z, P (.setProgress z) = true)
    (hmsg : ∀ m, P (.setMessage m) = true)
    (herr : ∀ e, P (.setError e) = true)
    (hpath : ∀ p, P (.setPath p) = true)
    (hconcat : P .callConcat = true)
    (hmerge : P .callMerge = true)
    (hgen : ∀ i s, P (.callGenClip i (apiGenerateVideoClip s req.model req.resolution req.fps))
      = true) :
    (runFromScenes req o scenes).all P = true := by
  have hloop := runClipsGo_all req o.clip scenes.length P hprog hmsg hgen scenes 0
  unfold runFromScenes
  cases hr : (runClipsGo req o.clip scenes.length 0 scenes).2 with
  | some e => simp [List.all_append, failTrace, hstat, hmsg, herr, hloop]
  | none =>
      simp [List.all_append, hmsg, hloop,
        afterClips_all o scenes.length P hstat hprog hmsg herr hpath hconcat hmerge]

/-- Every event of a full job execution satisfies a predicate that holds on
all record mutations and on every stage invocation the code can emit. -/
lemma runApi_all (req : ApiRequest) (o : ApiOracles) (P : Ev → Bool)
    (hstat : ∀ s, P (.setStatus s) = true)
    (hprog : ∀ z, P (.setProgress z) = true)
    (hmsg : ∀ m, P (.setMessage m) = true)
    (herr : ∀ e, P (.setError e) = true)
    (hpath : ∀ p, P (.setPath p) = true)
    (htrans : P .callTranscribe = true)
    (hplan : P .callPlan = true)
    (hconcat : P .callConcat = true)
    (hmerge : P .callMerge = true)
    (hgen : ∀ i s, P (.callGenClip i (apiGenerateVideoClip s req.model req.resolution req.fps))
      = true) :
    (runApi req o).all P = true := by
  have hfs : ∀ scenes, (runFromScenes req o scenes).all P = true := fun scenes =>
    runFromScenes_all req o scenes P hstat hprog hmsg herr hpath hconcat hmerge hgen
  unfold runApi runApiBody
  by_cases hk1 : o.openaiKey = ""
  · simp [hk1, failTrace, hstat, hprog, hmsg, herr]
  · by_cases hk2 : o.ltxKey = ""
    · simp [hk1, hk2, failTrace, hstat, hprog, hmsg, herr]
    · cases ho : req.promptOverride with
      | some p => simp [hk1, hk2, ho, hstat, hprog, hmsg, hfs]
      | none =>
          cases ht : o.transcribe with
          | error e =>
              simp [hk1, hk2, ho, ht, failTrace, hstat, hprog, hmsg, herr, htrans]
          | ok t =>
              cases hp : o.plan with
              | error e =>
                  simp [hk1, hk2, ho, ht, hp, failTrace, hstat, hprog, hmsg, herr,
                    htrans, hplan]
              | ok s =>
                  simp [hk1, hk2, ho, ht, hp, hstat, hprog, hmsg, htrans, hplan, hfs]

/-- Event is not a clip dispatch with a requested duration other than 6. -/
def clipDurationSix : Ev → Bool
  | .callGenClip _ pl => pl.duration == 6
  | _ => true

/-- C10: in the API variant every dispatched clip request carries a duration
of exactly 6 — the orchestration loop calls `generate_video_clip` without a
duration argument, so the default of 6 applies for every scene, whatever the
request's model, resolution, or fps. -/
theorem api_dispatch_duration_six (req : ApiRequest) (o : ApiOracles) :
    (runApi req o).all clipDurationSix = true :=
  runApi_all req o clipDurationSix
    (fun _ => rfl) (fun _ => rfl) (fun _ => rfl) (fun _ => rfl) (fun _ => rfl)
    rfl rfl rfl rfl (fun _ _ => rfl)

/-- Counterexample to C4: a job with `prompt_override` set dispatches its
single clip with the default duration 6, not the probed audio duration
quantized to the catalog (20 for a 60-second file); `process_audio_to_video`
in `api.py` never probes the audio duration at all, whatever the audio file
is. -/
theorem override_duration_counterexample :
    dispatchedDurations (runApi ⟨some "ovr", "Cinematic", none, "ltx-2-fast", "1920x1080", 25⟩
      ⟨"k", "k", Except.ok "t", Except.ok [], fun _ => Except.ok "url",
        Except.ok (), Except.ok (), fun _ => Except.ok (), Except.ok ()⟩) = [6] ∧
    dispatchedDurations (runApi ⟨some "ovr", "Cinematic", none, "ltx-2-fast", "1920x1080", 25⟩
      ⟨"k", "k", Except.ok "t", Except.ok [], fun _ => Except.ok "url",
        Except.ok (), Except.ok (), fun _ => Except.ok (), Except.ok ()⟩) ≠ [20] := by
  exact ⟨by decide, by decide⟩

/-- C4 amended: with `prompt_override` set, transcription and planning are
skipped, the plan is the single override text, and the job still passes
through clip generation, concatenation, and audio merge to completion; but
the audio duration is never probed and the single dispatched clip request
carries the default duration 6 rather than the quantized audio duration. -/
theorem override_shortcut_amended (o : ApiOracles) (p style : String)
    (notes : Option String) (model res : String) (fps : ℤ) (u : String)
    (h1 : o.openaiKey ≠ "") (h2 : o.ltxKey ≠ "")
    (hclip : o.clip 0 = .ok u) (hconcat : o.concat = .ok ())
    (hmerge : o.merge = .ok ()) (hrm : o.removeClip 0 = .ok ())
    (hrc : o.removeConcat = .ok ()) :
    (runApi ⟨some p, style, notes, model, res, fps⟩ o).all notTranscribePlan = true ∧
    dispatchedDurations (runApi ⟨some p, style, notes, model, res, fps⟩ o) = [6] ∧
    Ev.callConcat ∈ runApi ⟨some p, style, notes, model, res, fps⟩ o ∧
    Ev.callMerge ∈ runApi ⟨some p, style, notes, model, res, fps⟩ o ∧
    (finalRec (runApi ⟨some p, style, notes, model, res, fps⟩ o)).status = some "completed" ∧
    (finalRec (runApi ⟨some p, style, notes, model, res, fps⟩ o)).videoPath
      = some "final.mp4" := by
  have htr : runApi ⟨some p, style, notes, model, res, fps⟩ o =
      [Ev.setStatus "pending", Ev.setProgress 0, Ev.setMessage "Job queued",
       Ev.setStatus "processing", Ev.setProgress 0,
       Ev.setMessage "Transcribing audio...", Ev.setProgress 10,
       Ev.setMessage "Generating video clips...",
       Ev.setProgress (clipProgress 0 1),
       Ev.setMessage ("Generating clip " ++ toString (0 + 1) ++ "/" ++ toString 1 ++ "..."),
       Ev.callGenClip 0 (apiGenerateVideoClip p model res fps),
       Ev.setMessage "Assembling video...", Ev.setProgress 85, Ev.callConcat,
       Ev.setMessage "Adding audio...", Ev.setProgress 95, Ev.callMerge,
       Ev.setStatus "completed", Ev.setProgress 100, Ev.setMessage "Video ready!",
       Ev.setPath "final.mp4"] := by
    simp [runApi, runApiBody, runFromScenes, afterClips, runClipsGo, runCleanupGo,
      h1, h2, hclip, hconcat, hmerge, hrm, hrc]
  rw [htr]
  refine ⟨?_, ?_, ?_, ?_, ?_, ?_⟩
  · simp [notTranscribePlan]
  · simp [dispatchedDurations, apiGenerateVideoClip]
  · simp
  · simp
  · rfl
  · rfl

/-- Witness for the amended C4 at concrete inputs. -/
theorem override_shortcut_amended_witness :
    (runApi ⟨some "ovr", "Cinematic", none, "m", "r", 25⟩
      ⟨"k", "k", Except.ok "t", Except.ok [], fun _ => Except.ok "url",
        Except.ok (), Except.ok (), fun _ => Except.ok (), Except.ok ()⟩).all
      notTranscribePlan = true ∧
    dispatchedDurations (runApi ⟨some "ovr", "Cinematic", none, "m", "r", 25⟩
      ⟨"k", "k", Except.ok "t", Except.ok [], fun _ => Except.ok "url",
        Except.ok (), Except.ok (), fun _ => Except.ok (), Except.ok ()⟩) = [6] ∧
    Ev.callConcat ∈ runApi ⟨some "ovr", "Cinematic", none, "m", "r", 25⟩
      ⟨"k", "k", Except.ok "t", Except.ok [], fun _ => Except.ok "url",
        Except.ok (), Except.ok (), fun _ => Except.ok (), Except.ok ()⟩ ∧
    Ev.callMerge ∈ runApi ⟨some "ovr", "Cinematic", none, "m", "r", 25⟩
      ⟨"k", "k", Except.ok "t", Except.ok [], fun _ => Except.ok "url",
        Except.ok (), Except.ok (), fun _ => Except.ok (), Except.ok ()⟩ ∧
    (finalRec (runApi ⟨some "ovr", "Cinematic", none, "m", "r", 25⟩
      ⟨"k", "k", Except.ok "t", Except.ok [], fun _ => Except.ok "url",
        Except.ok (), Except.ok (), fun _ => Except.ok (), Except.ok ()⟩)).status
      = some "completed" ∧
    (finalRec (runApi ⟨some "ovr", "Cinematic", none, "m", "r", 25⟩
      ⟨"k", "k", Except.ok "t", Except.ok [], fun _ => Except.ok "url",
        Except.ok (), Except.ok (), fun _ => Except.ok (), Except.ok ()⟩)).videoPath
      = some "final.mp4" :=
  override_shortcut_amended _ "ovr" "Cinematic" none "m" "r" 25 "url"
    (by decide) (by decide) rfl rfl rfl rfl rfl

/-- Dropping the last element of an append drops it from the right part. -/
lemma dropLast_append_ne_nil (xs ys : List Ev) (h : ys ≠ []) :
    (xs ++ ys).dropLast = xs ++ ys.dropLast := by
  induction xs with
  | nil => simp
  | cons a xs ih =>
      cases hxy : xs ++ ys with
      | nil =>
          rcases List.append_eq_nil.mp hxy with ⟨h1, h2⟩
          exact absurd h2 h
      | cons b l =>
          rw [List.cons_append, hxy, List.dropLast_cons₂, ← hxy, ih, List.cons_append]

/-- Everything before the failure handler's final error write survives
`dropLast` unchanged. -/
lemma dropLast_append_failTrace (xs : List Ev) (e : String) :
    (xs ++ failTrace e).dropLast = xs ++ [Ev.setStatus "failed"] := by
  unfold failTrace
  rw [List.dropLast_append_cons]
  simp

/-- An all-predicate carries over `dropLast` of an append componentwise. -/
lemma all_dropLast_append (P : Ev → Bool) (xs ys : List Ev)
    (h1 : xs.all P = true) (h2 : ys.dropLast.all P = true) :
    ((xs ++ ys).dropLast).all P = true := by
  cases hy : ys with
  | nil =>
      subst hy
      rw [List.append_nil]
      exact List.all_eq_true.mpr fun x hx =>
        List.all_eq_true.mp h1 x ((List.dropLast_sublist xs).subset hx)
  | cons y l =>
      rw [← hy, dropLast_append_ne_nil xs ys (by simp [hy]), List.all_append, h1, h2]
      rfl

/-- An all-predicate carries over `dropLast` of a cons componentwise. -/
lemma all_dropLast_cons (P : Ev → Bool) (a : Ev) (l : List Ev)
    (h1 : P a = true) (h2 : l.dropLast.all P = true) :
    ((a :: l).dropLast).all P = true :=
  all_dropLast_append P [a] l (by simp [h1]) h2

/-- When every removal succeeds, the cleanup loop reports no error. -/
lemma runCleanupGo_ok (rm : ℕ → Except String Unit) (h : ∀ i, rm i = .ok ()) :
    ∀ (m i : ℕ), runCleanupGo rm i m = none := by
  intro m
  induction m with
  | zero => intro i; rfl
  | succ m ih =>
      intro i
      unfold runCleanupGo
      rw [h i]
      exact ih (i + 1)

/-- In the assembly-and-cleanup phase, an error write can only be the very
last event. -/
lemma afterClips_dropLast_notSetError (o : ApiOracles) (n : ℕ) :
    ((afterClips o n).dropLast).all notSetError = true := by
  unfold afterClips
  cases o.concat with
  | error e =>
      rw [dropLast_append_failTrace]
      simp [notSetError]
  | ok _ =>
      cases o.merge with
      | error e =>
          rw [← List.append_assoc, dropLast_append_failTrace]
          simp [notSetError]
      | ok _ =>
          cases runCleanupGo o.removeClip 0 n with
          | some e =>
              rw [← List.append_assoc, ← List.append_assoc, dropLast_append_failTrace]
              simp [notSetError]
          | none =>
              cases o.removeConcat with
              | error e =>
                  rw [← List.append_assoc, ← List.append_assoc, dropLast_append_failTrace]
                  simp [notSetError]
              | ok _ =>
                  simp [notSetError]

/-- When cleanup succeeds, the result-path write of the completion update is
the very last event of the assembly-and-cleanup phase. -/
lemma afterClips_dropLast_notSetPath (o : ApiOracles) (n : ℕ)
    (hclean : runCleanupGo o.removeClip 0 n = none) (hrc : o.removeConcat = .ok ()) :
    ((afterClips o n).dropLast).all notSetPath = true := by
  unfold afterClips
  cases o.concat with
  | error e =>
      rw [dropLast_append_failTrace]
      simp [notSetPath]
  | ok _ =>
      cases o.merge with
      | error e =>
          rw [← List.append_assoc, dropLast_append_failTrace]
          simp [notSetPath]
      | ok _ =>
          rw [hclean, hrc]
          simp [notSetPath]

/-- In the clip/assembly phase an error write can only be the last event. -/
lemma runFromScenes_dropLast_notSetError (req : ApiRequest) (o : ApiOracles)
    (scenes : List String) :
    ((runFromScenes req o scenes).dropLast).all notSetError = true := by
  have hloop := runClipsGo_all req o.clip scenes.length notSetError
    (fun _ => rfl) (fun _ => rfl) (fun _ _ => rfl) scenes 0
  unfold runFromScenes
  cases hr : (runClipsGo req o.clip scenes.length 0 scenes).2 with
  | some e =>
      apply all_dropLast_cons _ _ _ rfl
      show ((runClipsGo req o.clip scenes.length 0 scenes).1 ++
        failTrace e).dropLast.all notSetError = true
      rw [dropLast_append_failTrace, List.all_append, hloop]
      simp [notSetError]
  | none =>
      apply all_dropLast_cons _ _ _ rfl
      exact all_dropLast_append _ _ _ hloop (afterClips_dropLast_notSetError o _)

/-- When cleanup succeeds, a result-path write can only be the last event of
the clip/assembly phase. -/
lemma runFromScenes_dropLast_notSetPath (req : ApiRequest) (o : ApiOracles)
    (scenes : List String)
    (hrm : ∀ i, o.removeClip i = .ok ()) (hrc : o.removeConcat = .ok ()) :
    ((runFromScenes req o scenes).dropLast).all notSetPath = true := by
  have hloop := runClipsGo_all req o.clip scenes.length notSetPath
    (fun _ => rfl) (fun _ => rfl) (fun _ _ => rfl) scenes 0
  unfold runFromScenes
  cases hr : (runClipsGo req o.clip scenes.length 0 scenes).2 with
  | some e =>
      apply all_dropLast_cons _ _ _ rfl
      show ((runClipsGo req o.clip scenes.length 0 scenes).1 ++
        failTrace e).dropLast.all notSetPath = true
      rw [dropLast_append_failTrace, List.all_append, hloop]
      simp [notSetPath]
  | none =>
      apply all_dropLast_cons _ _ _ rfl
      exact all_dropLast_append _ _ _ hloop
        (afterClips_dropLast_notSetPath o _ (runCleanupGo_ok o.removeClip hrm _ 0) hrc)

/-- C9 amended: once the failure handler records the error (immediately after
the status becomes failed), the record is never mutated again — an error
write is always the final event; and when the cleanup removals succeed, a
completed job's record is never mutated after the completion update records
the result path.  (Without the cleanup hypothesis this fails: a cleanup error
re-enters the failure handler and overwrites a completed job, which is the
counterexample.) -/
theorem terminal_finality_amended (req : ApiRequest) (o : ApiOracles) :
    ((runApi req o).dropLast).all notSetError = true ∧
    ((∀ i, o.removeClip i = .ok ()) → o.removeConcat = .ok () →
      ((runApi req o).dropLast).all notSetPath = true) := by
  constructor
  · unfold runApi runApiBody
    apply all_dropLast_append notSetError _ _ (by simp [notSetError])
    by_cases hk1 : o.openaiKey = ""
    · rw [if_pos hk1]
      apply all_dropLast_append notSetError _ _ (by simp [notSetError])
      simp [failTrace, notSetError]
    · rw [if_neg hk1]
      by_cases hk2 : o.ltxKey = ""
      · rw [if_pos hk2]
        apply all_dropLast_append notSetError _ _ (by simp [notSetError])
        simp [failTrace, notSetError]
      · rw [if_neg hk2]
        apply all_dropLast_append notSetError _ _ (by simp [notSetError])
        apply all_dropLast_append notSetError _ _ (by simp [notSetError])
        cases ho : req.promptOverride with
        | some p => exact runFromScenes_dropLast_notSetError req o [p]
        | none =>
            apply all_dropLast_cons _ _ _ rfl
            cases ht : o.transcribe with
            | error e => simp [failTrace, notSetError]
            | ok t =>
                apply all_dropLast_append notSetError _ _ (by simp [notSetError])
                cases hp : o.plan with
                | error e => simp [failTrace, notSetError]
                | ok s => exact runFromScenes_dropLast_notSetError req o s
  · intro hrm hrc
    unfold runApi runApiBody
    apply all_dropLast_append notSetPath _ _ (by simp [notSetPath])
    by_cases hk1 : o.openaiKey = ""
    · rw [if_pos hk1]
      apply all_dropLast_append notSetPath _ _ (by simp [notSetPath])
      simp [failTrace, notSetPath]
    · rw [if_neg hk1]
      by_cases hk2 : o.ltxKey = ""
      · rw [if_pos hk2]
        apply all_dropLast_append notSetPath _ _ (by simp [notSetPath])
        simp [failTrace, notSetPath]
      · rw [if_neg hk2]
        apply all_dropLast_append notSetPath _ _ (by simp [notSetPath])
        apply all_dropLast_append notSetPath _ _ (by simp [notSetPath])
        cases ho : req.promptOverride with
        | some p => exact runFromScenes_dropLast_notSetPath req o [p] hrm hrc
        | none =>
            apply all_dropLast_cons _ _ _ rfl
            cases ht : o.transcribe with
            | error e => simp [failTrace, notSetPath]
            | ok t =>
                apply all_dropLast_append notSetPath _ _ (by simp [notSetPath])
                cases hp : o.plan with
                | error e => simp [failTrace, notSetPath]
                | ok s => exact runFromScenes_dropLast_notSetPath req o s hrm hrc

/-- Witness for the amended C9: a fully successful run, whose cleanup
succeeds, has the error write nowhere and the path write only as the final
event. -/
theorem terminal_finality_amended_witness :
    ((runApi ⟨some "ovr", "Cinematic", none, "m", "r", 25⟩
      ⟨"k", "k", Except.ok "t", Except.ok [], fun _ => Except.ok "url",
        Except.ok (), Except.ok (), fun _ => Except.ok (), Except.ok ()⟩).dropLast).all
      notSetPath = true :=
  (terminal_finality_amended ⟨some "ovr", "Cinematic", none, "m", "r", 25⟩
      ⟨"k", "k", Except.ok "t", Except.ok [], fun _ => Except.ok "url",
        Except.ok (), Except.ok (), fun _ => Except.ok (), Except.ok ()⟩).2
    (fun _ => rfl) rfl

/-- Counterexample to C9: when the cleanup of intermediate clip files raises,
a job whose record already reads completed (with its result path recorded) is
mutated again by the failure handler and ends failed. -/
theorem terminal_finality_counterexample :
    Ev.setStatus "completed" ∈ runApi ⟨some "ovr", "Cinematic", none, "m", "r", 25⟩
      ⟨"k", "k", Except.ok "t", Except.ok [], fun _ => Except.ok "url",
        Except.ok (), Except.ok (), fun _ => Except.error "remove failed", Except.ok ()⟩ ∧
    Ev.setPath "final.mp4" ∈ runApi ⟨some "ovr", "Cinematic", none, "m", "r", 25⟩
      ⟨"k", "k", Except.ok "t", Except.ok [], fun _ => Except.ok "url",
        Except.ok (), Except.ok (), fun _ => Except.error "remove failed", Except.ok ()⟩ ∧
    (finalRec (runApi ⟨some "ovr", "Cinematic", none, "m", "r", 25⟩
      ⟨"k", "k", Except.ok "t", Except.ok [], fun _ => Except.ok "url",
        Except.ok (), Except.ok (), fun _ => Except.error "remove failed", Except.ok ()⟩)).status
      = some "failed" :=
  ⟨by decide, by decide, rfl⟩

/-- Truncation of a nonnegative rational is nonnegative. -/
lemma pyInt_nonneg (q : ℚ) (h : 0 ≤ q) : 0 ≤ pyInt q := by
  unfold pyInt
  rw [if_pos h]
  exact Int.floor_nonneg.mpr h

/-- Truncation is monotone on nonnegative rationals. -/
lemma pyInt_mono_nonneg (a b : ℚ) (ha : 0 ≤ a) (h : a ≤ b) : pyInt a ≤ pyInt b := by
  unfold pyInt
  rw [if_pos ha, if_pos (le_trans ha h)]
  exact Int.floor_le_floor h

/-- The first clip's progress value is exactly 30. -/
lemma clipProgress_zero (n : ℕ) : clipProgress 0 n = 30 := by
  simp [clipProgress, pyInt]

/-- Every clip progress value is at least 30. -/
lemma clipProgress_lb (i n : ℕ) : 30 ≤ clipProgress i n := by
  unfold clipProgress
  have h0 : (0 : ℚ) ≤ (i : ℚ) / (n : ℚ) * 50 := by positivity
  have := pyInt_nonneg _ h0
  omega

/-- Clip progress values increase with the clip index. -/
lemma clipProgress_mono (i n : ℕ) : clipProgress i n ≤ clipProgress (i + 1) n := by
  cases n with
  | zero => simp [clipProgress]
  | succ m =>
      unfold clipProgress
      have h0 : (0 : ℚ) ≤ (i : ℚ) / ((m + 1 : ℕ) : ℚ) * 50 := by positivity
      have hle : (i : ℚ) / ((m + 1 : ℕ) : ℚ) * 50 ≤
          ((i + 1 : ℕ) : ℚ) / ((m + 1 : ℕ) : ℚ) * 50 := by
        have hn : (0 : ℚ) < ((m + 1 : ℕ) : ℚ) := by positivity
        have hi : (i : ℚ) ≤ ((i + 1 : ℕ) : ℚ) := by push_cast; linarith
        gcongr
      have := pyInt_mono_nonneg _ _ h0 hle
      omega

/-- A clip's progress value stays below 80 while the index is in range. -/
lemma clipProgress_ub (i n : ℕ) (h : i < n) : clipProgress i n ≤ 79 := by
  unfold clipProgress
  have hn : (0 : ℚ) < (n : ℚ) := by
    have : 0 < n := Nat.lt_of_le_of_lt (Nat.zero_le i) h
    exact_mod_cast this
  have h0 : (0 : ℚ) ≤ (i : ℚ) / (n : ℚ) * 50 := by positivity
  have hq : (i : ℚ) / (n : ℚ) * 50 < 50 := by
    have h1 : (i : ℚ) / (n : ℚ) < 1 := (div_lt_one hn).mpr (by exact_mod_cast h)
    calc (i : ℚ) / (n : ℚ) * 50 < 1 * 50 := by
          exact mul_lt_mul_of_pos_right h1 (by norm_num)
      _ = 50 := by norm_num
  have hfl : pyInt ((i : ℚ) / (n : ℚ) * 50) ≤ 49 := by
    unfold pyInt
    rw [if_pos h0]
    have := Int.floor_lt.mpr (show (i : ℚ) / (n : ℚ) * 50 < ((50 : ℤ) : ℚ) by
      exact_mod_cast hq)
    omega
  omega

/-- The progress updates of the clip loop: monotone non-decreasing, bounded
below by the progress of the starting index and above by 79, as long as the
indices stay in range. -/
lemma runClipsGo_progress (req : ApiRequest) (clip : ℕ → Except String String) (n : ℕ) :
    ∀ (scenes : List String) (i : ℕ), i + scenes.length ≤ n →
      List.Chain' (· ≤ ·) (progressValues (runClipsGo req clip n i scenes).1) ∧
      (∀ q ∈ progressValues (runClipsGo req clip n i scenes).1,
        clipProgress i n ≤ q ∧ q ≤ 79) := by
  intro scenes
  induction scenes with
  | nil =>
      intro i h
      constructor
      · simp [runClipsGo, progressValues]
      · intro q hq
        simp [runClipsGo, progressValues] at hq
  | cons s rest ih =>
      intro i h
      have hi : i < n := by
        simp only [List.length_cons] at h
        omega
      unfold runClipsGo
      cases hc : clip i with
      | error e =>
          constructor
          · simp [progressValues]
          · intro q hq
            simp [progressValues] at hq
            subst hq
            exact ⟨le_refl _, clipProgress_ub i n hi⟩
      | ok u =>
          have hrest : (i + 1) + rest.length ≤ n := by
            simp only [List.length_cons] at h
            omega
          obtain ⟨ihc, ihb⟩ := ih (i + 1) hrest
          have hpv : progressValues
              ([Ev.setProgress (clipProgress i n),
                Ev.setMessage ("Generating clip " ++ toString (i + 1) ++ "/" ++
                  toString n ++ "..."),
                Ev.callGenClip i (apiGenerateVideoClip s req.model req.resolution req.fps)] ++
                (runClipsGo req clip n (i + 1) rest).1) =
              clipProgress i n :: progressValues (runClipsGo req clip n (i + 1) rest).1 := by
            simp [progressValues]
          constructor
          · rw [hpv, List.chain'_cons']
            refine ⟨?_, ihc⟩
            intro y hy
            have hmem := List.mem_of_mem_head? hy
            exact le_trans (clipProgress_mono i n) (ihb y hmem).1
          · intro q hq
            rw [hpv] at hq
            rcases List.mem_cons.mp hq with hq1 | hq2
            · rw [hq1]
              exact ⟨le_refl _, clipProgress_ub i n hi⟩
            · exact ⟨le_trans (clipProgress_mono i n) (ihb q hq2).1, (ihb q hq2).2⟩

/-- The progress updates of the assembly-and-cleanup phase: a monotone prefix
of `[85, 95, 100]`, starting at 85. -/
lemma afterClips_progress (o : ApiOracles) (n : ℕ) :
    List.Chain' (· ≤ ·) (progressValues (afterClips o n)) ∧
    (∀ q ∈ progressValues (afterClips o n), 85 ≤ q ∧ q ≤ 100) ∧
    (progressValues (afterClips o n)).head? = some 85 := by
  unfold afterClips
  cases o.concat with
  | error e =>
      refine ⟨by simp [progressValues, failTrace], ?_, by simp [progressValues, failTrace]⟩
      intro q hq
      simp [progressValues, failTrace] at hq
      omega
  | ok _ =>
      cases o.merge with
      | error e =>
          refine ⟨by simp [progressValues, failTrace, List.chain'_cons], ?_,
            by simp [progressValues, failTrace]⟩
          intro q hq
          simp [progressValues, failTrace] at hq
          rcases hq with h | h <;> omega
      | ok _ =>
          cases runCleanupGo o.removeClip 0 n with
          | some e =>
              refine ⟨by simp [progressValues, failTrace, List.chain'_cons], ?_,
                by simp [progressValues, failTrace]⟩
              intro q hq
              simp [progressValues, failTrace] at hq
              rcases hq with h | h | h <;> omega
          | none =>
              cases o.removeConcat with
              | error e =>
                  refine ⟨by simp [progressValues, failTrace, List.chain'_cons], ?_,
                    by simp [progressValues, failTrace]⟩
                  intro q hq
                  simp [progressValues, failTrace] at hq
                  rcases hq with h | h | h <;> omega
              | ok _ =>
                  refine ⟨by simp [progressValues, List.chain'_cons], ?_,
                    by simp [progressValues]⟩
                  intro q hq
                  simp [progressValues] at hq
                  rcases hq with h | h | h <;> omega

/-- The progress updates of the clip/assembly phase: monotone, between 30
and 100. -/
lemma runFromScenes_progress (req : ApiRequest) (o : ApiOracles) (scenes : List String) :
    List.Chain' (· ≤ ·) (progressValues (runFromScenes req o scenes)) ∧
    (∀ q ∈ progressValues (runFromScenes req o scenes), 30 ≤ q ∧ q ≤ 100) := by
  obtain ⟨hlc, hlb⟩ := runClipsGo_progress req o.clip scenes.length scenes 0 (by omega)
  have hlb30 : ∀ q ∈ progressValues (runClipsGo req o.clip scenes.length 0 scenes).1,
      30 ≤ q ∧ q ≤ 79 := by
    intro q hq
    have := hlb q hq
    rw [clipProgress_zero] at this
    exact this
  unfold runFromScenes
  cases hr : (runClipsGo req o.clip scenes.length 0 scenes).2 with
  | some e =>
      have hpv : progressValues (Ev.setMessage "Generating video clips..." ::
          (runClipsGo req o.clip scenes.length 0 scenes).1 ++ failTrace e) =
          progressValues (runClipsGo req o.clip scenes.length 0 scenes).1 := by
        simp [progressValues, failTrace]
      rw [hpv]
      exact ⟨hlc, fun q hq => ⟨(hlb30 q hq).1, le_trans (hlb30 q hq).2 (by norm_num)⟩⟩
  | none =>
      obtain ⟨hac, hab, hah⟩ := afterClips_progress o scenes.length
      have hpv : progressValues (Ev.setMessage "Generating video clips..." ::
          (runClipsGo req o.clip scenes.length 0 scenes).1 ++ afterClips o scenes.length) =
          progressValues (runClipsGo req o.clip scenes.length 0 scenes).1 ++
            progressValues (afterClips o scenes.length) := by
        simp [progressValues]
      rw [hpv]
      constructor
      · refine List.Chain'.append hlc hac ?_
        intro x hx y hy
        have hx' := List.mem_of_mem_getLast? hx
        have hy' := List.mem_of_mem_head? hy
        exact le_trans (hlb30 x hx').2 (le_trans (by norm_num) (hab y hy').1)
      · intro q hq
        rcases List.mem_append.mp hq with h | h
        · exact ⟨(hlb30 q h).1, le_trans (hlb30 q h).2 (by norm_num)⟩
        · exact ⟨le_trans (by norm_num) (hab q h).1, (hab q h).2⟩

/-- C8: over any full job execution — from the creation of the job entry
through either terminal outcome, under every combination of external-call
outcomes — the sequence of values written to the job's progress field is
monotonically non-decreasing and stays within 0 to 100. -/
theorem job_progress_monotone (req : ApiRequest) (o : ApiOracles) :
    List.Chain' (· ≤ ·) (progressValues (runApi req o)) ∧
    (∀ q ∈ progressValues (runApi req o), 0 ≤ q ∧ q ≤ 100) := by
  by_cases hk1 : o.openaiKey = ""
  · have hpv : progressValues (runApi req o) = [0, 0] := by
      simp [runApi, runApiBody, hk1, progressValues, failTrace]
    rw [hpv]
    refine ⟨by simp [List.chain'_cons], ?_⟩
    intro q hq
    simp at hq
    omega
  · by_cases hk2 : o.ltxKey = ""
    · have hpv : progressValues (runApi req o) = [0, 0] := by
        simp [runApi, runApiBody, hk1, hk2, progressValues, failTrace]
      rw [hpv]
      refine ⟨by simp [List.chain'_cons], ?_⟩
      intro q hq
      simp at hq
      omega
    · cases ho : req.promptOverride with
      | some p =>
          obtain ⟨hfc, hfb⟩ := runFromScenes_progress req o [p]
          have hpv : progressValues (runApi req o) =
              0 :: 0 :: 10 :: progressValues (runFromScenes req o [p]) := by
            simp [runApi, runApiBody, hk1, hk2, ho, progressValues]
          rw [hpv]
          constructor
          · rw [List.chain'_cons, List.chain'_cons, List.chain'_cons']
            refine ⟨by norm_num, by norm_num, ?_, hfc⟩
            intro y hy
            have := (hfb y (List.mem_of_mem_head? hy)).1
            omega
          · intro q hq
            simp only [List.mem_cons] at hq
            rcases hq with h | h | h | h
            · omega
            · omega
            · omega
            · have := hfb q h
              omega
      | none =>
          cases ht : o.transcribe with
          | error e =>
              have hpv : progressValues (runApi req o) = [0, 0, 10] := by
                simp [runApi, runApiBody, hk1, hk2, ho, ht, progressValues, failTrace]
              rw [hpv]
              refine ⟨by simp [List.chain'_cons], ?_⟩
              intro q hq
              simp at hq
              rcases hq with h | h | h <;> omega
          | ok t =>
              cases hp : o.plan with
              | error e =>
                  have hpv : progressValues (runApi req o) = [0, 0, 10, 20] := by
                    simp [runApi, runApiBody, hk1, hk2, ho, ht, hp, progressValues,
                      failTrace]
                  rw [hpv]
                  refine ⟨by simp [List.chain'_cons], ?_⟩
                  intro q hq
                  simp at hq
                  rcases hq with h | h | h | h <;> omega
              | ok s =>
                  obtain ⟨hfc, hfb⟩ := runFromScenes_progress req o s
                  have hpv : progressValues (runApi req o) =
                      0 :: 0 :: 10 :: 20 :: progressValues (runFromScenes req o s) := by
                    simp [runApi, runApiBody, hk1, hk2, ho, ht, hp, progressValues]
                  rw [hpv]
                  constructor
                  · rw [List.chain'_cons, List.chain'_cons, List.chain'_cons,
                      List.chain'_cons']
                    refine ⟨by norm_num, by norm_num, by norm_num, ?_, hfc⟩
                    intro y hy
                    have := (hfb y (List.mem_of_mem_head? hy)).1
                    omega
                  · intro q hq
                    simp only [List.mem_cons] at hq
                    rcases hq with h | h | h | h | h
                    · omega
                    · omega
                    · omega
                    · omega
                    · have := hfb q h
                      omega
